import Mathlib

/-!
Verification model of the profile replication/caching/distribution core:
the client-side subscription manager (embed-api/profile-store.mjs) and the
embed-aware relay node (relay/server.mjs).

Conventions of the embedding:
* JavaScript strings are Lean `String`s; `startsWith`, `slice` and `includes`
  are modelled on the underlying character lists.
* The process-wide `activeSubscriptions` JS `Map` is modelled as an
  association list in insertion order (`Registry`), with `regGet` / `regSet`
  / `regDelete` mirroring `Map.get` / `Map.set` / `Map.delete`.
* Network reads are oracles: for the untimed model, `netd : String -> Option Doc`
  gives the document a freshly created subscription's `ready` promise resolves
  with for a given relay URL (none = timeout / no data within the 10 s bound);
  for the timed model, `net : String -> Option (Nat × Doc)` gives the arrival
  time (ms after the attempt starts) of the first document a relay yields.
* `Doc` is the opaque JSON document type; JSON.stringify is an oracle
  `ser : Doc -> String`.  Documents handled by the store are truthy JS values
  (falsy ones are filtered out by `extractProfile` before they reach it).
* Listener callbacks are opaque values of a type `L`; whether a callback
  throws when invoked is an oracle `throws : L -> Bool`.
* Promise resolution is fast-forwarded: a state-transforming operation
  returns the registry as it stands once the relevant settlement happened.
-/

namespace Profiles

/-- Stable room-name marker from the source (`ROOM_PREFIX = 'profile-'`). -/
def ROOM_PREFIX : String := "profile-"

/-- Cache freshness TTL (`CACHE_TTL_MS = 5 * 60 * 1000`). -/
def CACHE_TTL_MS : Nat := 5 * 60 * 1000

/-- Idle teardown delay (`SUBSCRIPTION_IDLE_TIMEOUT_MS = 10 * 60 * 1000`). -/
def SUBSCRIPTION_IDLE_TIMEOUT_MS : Nat := 10 * 60 * 1000

/-- Polling fallback period (`POLL_INTERVAL_MS = 10 * 1000`). -/
def POLL_INTERVAL_MS : Nat := 10 * 1000

/-- Bound of the `ready` promise in `ensureSubscription` (`setTimeout(..., 10000)`).
This is both the network-stage per-candidate bound and the subscribe grace window. -/
def READY_TIMEOUT_MS : Nat := 10000

/-- JS `String.prototype.startsWith`, on the character sequences. -/
def jsStartsWith (s pre : String) : Bool := pre.data.isPrefixOf s.data

/-- Source `toRoomId`: prepend `ROOM_PREFIX` unless the input already starts
with it. -/
def toRoomId (profileId : String) : String :=
  if jsStartsWith profileId ROOM_PREFIX then profileId
  else ROOM_PREFIX ++ profileId

/-- Source `toProfileId`: strip a leading `ROOM_PREFIX` (JS
`input.slice(ROOM_PREFIX.length)`), otherwise return the input unchanged. -/
def toProfileId (input : String) : String :=
  if jsStartsWith input ROOM_PREFIX then String.mk (input.data.drop ROOM_PREFIX.length)
  else input

/-! Basic facts about the id derivation. -/

theorem isPrefixOf_append (p s : List Char) : p.isPrefixOf (p ++ s) = true := by
  induction p with
  | nil => simp [List.isPrefixOf]
  | cons a as ih => simp [List.isPrefixOf, ih]

theorem jsStartsWith_append (s : String) :
    jsStartsWith (ROOM_PREFIX ++ s) ROOM_PREFIX = true := by
  have h : (ROOM_PREFIX ++ s).data = ROOM_PREFIX.data ++ s.data := by
    cases s with
    | mk d => rfl
  simp [jsStartsWith, h, isPrefixOf_append]

theorem data_drop_append (s : String) :
    (ROOM_PREFIX ++ s).data.drop ROOM_PREFIX.length = s.data := by
  have h : (ROOM_PREFIX ++ s).data = ROOM_PREFIX.data ++ s.data := by
    cases s with
    | mk d => rfl
  have hlen : ROOM_PREFIX.length = ROOM_PREFIX.data.length := rfl
  rw [h, hlen, List.drop_left]

/-- C10: `toRoomId` is idempotent; `toProfileId` is idempotent on inputs that
do not start with the room marker; and for every profileId that does not start
with the marker, `toProfileId (toRoomId profileId) = profileId`. -/
theorem roomId_derivation_algebra (s p : String) :
    toRoomId (toRoomId s) = toRoomId s ∧
    (jsStartsWith s ROOM_PREFIX = false → toProfileId (toProfileId s) = toProfileId s) ∧
    (jsStartsWith p ROOM_PREFIX = false → toProfileId (toRoomId p) = p) := by
  refine ⟨?idem, ?pidem, ?round⟩
  case idem =>
    by_cases h : jsStartsWith s ROOM_PREFIX
    · simp [toRoomId, h]
    · simp [toRoomId, h, jsStartsWith_append]
  case pidem =>
    intro h
    simp [toProfileId, h]
  case round =>
    intro h
    have h1 : toRoomId p = ROOM_PREFIX ++ p := by simp [toRoomId, h]
    rw [h1]
    simp [toProfileId, jsStartsWith_append, data_drop_append]

/-- Witness for C10 at concrete inputs. -/
theorem roomId_derivation_algebra_witness :
    toRoomId (toRoomId "alice") = toRoomId "alice" ∧
    toProfileId (toProfileId "alice") = toProfileId "alice" ∧
    toProfileId (toRoomId "alice") = "alice" := by
  have h := roomId_derivation_algebra "alice" "alice"
  exact ⟨h.1, h.2.1 (by decide), h.2.2 (by decide)⟩

/-! Data model of the subscription manager. -/

/-- Disk cache record, one per room (`{profile, cachedAt, sourceRelay}` as
written by `writeCache` and read back by `readCache`). -/
structure CacheEntry (Doc : Type) where
  profile : Doc
  cachedAt : Nat
  sourceRelay : Option String
deriving DecidableEq

/-- In-memory replica state, one entry of `activeSubscriptions`
(`{doc, provider, profile, listeners, idleTimer, pollTimer, relayUrl}`; the
`doc` and `provider` handles are external objects carrying no model state, a
timer is represented by whether it is armed). -/
structure Subscription (Doc L : Type) where
  profile : Option Doc
  listeners : List L
  relayUrl : String
  idleTimerArmed : Bool
  pollTimerOn : Bool
deriving DecidableEq

/-- The process-wide `activeSubscriptions` JS `Map`, as an association list in
insertion order. -/
abbrev Registry (Doc L : Type) := List (String × Subscription Doc L)

/-- JS `Map.get`. -/
def regGet {Doc L : Type} : Registry Doc L → String → Option (Subscription Doc L)
  | [], _ => none
  | e :: rest, k => if e.1 == k then some e.2 else regGet rest k

/-- JS `Map.set`: replace the entry in place when the key is present,
append otherwise. -/
def regSet {Doc L : Type} : Registry Doc L → String → Subscription Doc L → Registry Doc L
  | [], k, v => [(k, v)]
  | e :: rest, k, v => if e.1 == k then (k, v) :: rest else e :: regSet rest k v

/-- JS `Map.delete`. -/
def regDelete {Doc L : Type} : Registry Doc L → String → Registry Doc L
  | [], _ => []
  | e :: rest, k => if e.1 == k then regDelete rest k else e :: regDelete rest k

/-- Key uniqueness of the registry: the formal content of "at most one Replica
per RoomId process-wide". -/
def keysNodup {Doc L : Type} (reg : Registry Doc L) : Prop :=
  (reg.map Prod.fst).Nodup

instance {Doc L : Type} (reg : Registry Doc L) : Decidable (keysNodup reg) := by
  unfold keysNodup; infer_instance

/-- JS `Set.add` on the listener set (kept as an insertion-ordered list). -/
def setAdd {L : Type} [DecidableEq L] (l : List L) (c : L) : List L :=
  if l.contains c then l else l ++ [c]

/-- JS `Set.delete` on the listener set. -/
def setDel {L : Type} [DecidableEq L] (l : List L) (c : L) : List L :=
  l.filter (fun x => !(x == c))

/-! Registry lemmas. -/

theorem regGet_regSet_self {Doc L : Type} (reg : Registry Doc L) (k : String)
    (v : Subscription Doc L) : regGet (regSet reg k v) k = some v := by
  induction reg with
  | nil => simp [regSet, regGet]
  | cons e rest ih =>
    by_cases h : e.1 == k
    · simp [regSet, h, regGet]
    · simp [regSet, h, regGet, ih]

theorem regGet_regDelete_self {Doc L : Type} (reg : Registry Doc L) (k : String) :
    regGet (regDelete reg k) k = none := by
  induction reg with
  | nil => simp [regDelete, regGet]
  | cons e rest ih =>
    by_cases h : e.1 == k
    · simp [regDelete, h, ih]
    · simp [regDelete, h, regGet, ih]

theorem regGet_none_of_beq_all {Doc L : Type} (reg : Registry Doc L) (k : String)
    (h : regGet reg k = none) : k ∉ reg.map Prod.fst := by
  induction reg with
  | nil => simp
  | cons e rest ih =>
    by_cases hk : e.1 == k
    · simp [regGet, hk] at h
    · simp only [regGet, hk, if_neg, Bool.false_eq_true, ite_false] at h
      have hne : ¬ k = e.1 := fun hkk => by simp [hkk] at hk
      simp only [List.map_cons, List.mem_cons]
      rintro (h1 | h1)
      · exact hne h1
      · exact ih h h1

theorem keys_regSet_of_found {Doc L : Type} (reg : Registry Doc L) (k : String)
    (v : Subscription Doc L) (h : (regGet reg k).isSome) :
    (regSet reg k v).map Prod.fst = reg.map Prod.fst := by
  induction reg with
  | nil => simp [regGet] at h
  | cons e rest ih =>
    by_cases hk : e.1 == k
    · have hek : e.1 = k := by simpa using hk
      simp [regSet, hk, hek]
    · simp only [regGet, hk, Bool.false_eq_true, ite_false] at h
      simp [regSet, hk, ih h]

theorem keys_regSet_of_none {Doc L : Type} (reg : Registry Doc L) (k : String)
    (v : Subscription Doc L) (h : regGet reg k = none) :
    (regSet reg k v).map Prod.fst = reg.map Prod.fst ++ [k] := by
  induction reg with
  | nil => simp [regSet]
  | cons e rest ih =>
    by_cases hk : e.1 == k
    · simp [regGet, hk] at h
    · simp only [regGet, hk, Bool.false_eq_true, ite_false] at h
      simp [regSet, hk, ih h]

theorem keys_regDelete {Doc L : Type} (reg : Registry Doc L) (k : String) :
    (regDelete reg k).map Prod.fst = (reg.map Prod.fst).filter (fun x => !(x == k)) := by
  induction reg with
  | nil => rfl
  | cons e rest ih =>
    by_cases hk : e.1 == k
    · simp [regDelete, hk, ih, List.filter_cons]
    · simp [regDelete, hk, ih, List.filter_cons]

theorem keysNodup_regSet {Doc L : Type} (reg : Registry Doc L) (k : String)
    (v : Subscription Doc L) (h : keysNodup reg) : keysNodup (regSet reg k v) := by
  unfold keysNodup at h ⊢
  cases hg : regGet reg k with
  | some s => rw [keys_regSet_of_found reg k v (by simp [hg])]; exact h
  | none =>
    rw [keys_regSet_of_none reg k v hg]
    have hnm := regGet_none_of_beq_all reg k hg
    simp [List.nodup_append, h, hnm]

theorem keysNodup_regDelete {Doc L : Type} (reg : Registry Doc L) (k : String)
    (h : keysNodup reg) : keysNodup (regDelete reg k) := by
  unfold keysNodup at h ⊢
  rw [keys_regDelete]
  exact h.filter _

/-! Subscription manager operations (embed-api/profile-store.mjs, second
revision — the one with the polling fallback). -/

/-- JS truthiness of a possibly-missing string (`null`, `undefined` and the
empty string are falsy). -/
def jsTruthyStr : Option String → Option String
  | some s => if s.isEmpty then none else some s
  | none => none

/-- Source `ensureSubscription(roomId, relayUrl)`.  Reuse branch: the existing
entry is kept (its idle timer re-armed by `resetIdleTimer`) and `ready` is
`Promise.resolve(sub.profile)`.  Create branch: a new entry is registered; its
`ready` promise resolves with the first document the relay yields within the
10 s bound (`netd relayUrl`), at which point `sub.profile` holds that document;
the polling fallback is started and the idle timer armed.  Returns the registry
after settlement and the value `ready` resolves with. -/
def ensureSubscription {Doc L : Type} (netd : String → Option Doc)
    (reg : Registry Doc L) (roomId relayUrl : String) :
    Registry Doc L × Option Doc :=
  match regGet reg roomId with
  | some s => (regSet reg roomId { s with idleTimerArmed := true }, s.profile)
  | none =>
    let p := netd relayUrl
    (regSet reg roomId
      { profile := p, listeners := [], relayUrl := relayUrl,
        idleTimerArmed := true, pollTimerOn := true }, p)

/-- Source `destroySubscription(roomId)`: timers cleared, provider and doc
destroyed (external handles), entry removed from the map. -/
def destroySubscription {Doc L : Type} (reg : Registry Doc L) (roomId : String) :
    Registry Doc L :=
  regDelete reg roomId

/-- Relay choice made by `subscribe` (`existing?.relayUrl || urls[0]`): the
existing subscription's bound relay if one exists, else the first candidate.
(When no subscription exists the model assumes `relayUrls` is nonempty, as the
source would otherwise throw from `toWsUrl(undefined)`.) -/
def subscribeRelay {Doc L : Type} (reg : Registry Doc L) (roomId : String)
    (urls : List String) : String :=
  match regGet reg roomId with
  | some s => s.relayUrl
  | none => urls.headD ""

/-- The listener registration step of `subscribe` (`const sub =
activeSubscriptions.get(roomId); if (sub) sub.listeners.add(callback);`). -/
def addListener {Doc L : Type} [DecidableEq L] (reg : Registry Doc L)
    (roomId : String) (cb : L) : Registry Doc L :=
  match regGet reg roomId with
  | some s => regSet reg roomId { s with listeners := setAdd s.listeners cb }
  | none => reg

/-- Source `subscribe(profileId, relayUrls, callback)` up to and including the
synchronous registration of the listener: `ensureSubscription` on the chosen
relay, then the callback is added to the listener set.  Returns the registry
and the value the returned `ready` future resolves with. -/
def subscribe {Doc L : Type} [DecidableEq L] (netd : String → Option Doc)
    (reg : Registry Doc L) (profileId : String) (urls : List String) (cb : L) :
    Registry Doc L × Option Doc :=
  (addListener
    (ensureSubscription netd reg (toRoomId profileId)
      (subscribeRelay reg (toRoomId profileId) urls)).1
    (toRoomId profileId) cb,
   (ensureSubscription netd reg (toRoomId profileId)
      (subscribeRelay reg (toRoomId profileId) urls)).2)

/-- The `unsubscribe` closure returned by `subscribe`: deletes the callback
from the listener set and, when the set becomes empty, re-arms the idle
timer (`resetIdleTimer`). -/
def unsubscribeStep {Doc L : Type} [DecidableEq L] (reg : Registry Doc L)
    (roomId : String) (cb : L) : Registry Doc L :=
  match regGet reg roomId with
  | none => reg
  | some s =>
    let l := setDel s.listeners cb
    if l.isEmpty then
      regSet reg roomId { s with listeners := l, idleTimerArmed := true }
    else
      regSet reg roomId { s with listeners := l }

/-- Firing of the idle timer: destroy the subscription only when the listener
set is still empty. -/
def idleFire {Doc L : Type} (reg : Registry Doc L) (roomId : String) :
    Registry Doc L :=
  match regGet reg roomId with
  | some s => if s.listeners.isEmpty then destroySubscription reg roomId else reg
  | none => reg

/-- One externally supplied listener invocation (`callback(profile)`), which
either returns normally or throws. -/
def invokeListener {L : Type} (throws : L → Bool) (c : L) : Except Unit Unit :=
  if throws c then Except.error () else Except.ok ()

/-- The fan-out loop of `notifyListeners`: each invocation is wrapped in
`try { callback(profile) } catch { log }`, so both outcomes continue with the
next listener.  Returns the callbacks invoked, in order, and the number of
exceptions caught. -/
def runCallbacks {L : Type} (throws : L → Bool) : List L → List L × Nat
  | [] => ([], 0)
  | c :: cs =>
    match invokeListener throws c with
    | Except.ok _ => ((c :: (runCallbacks throws cs).1), (runCallbacks throws cs).2)
    | Except.error _ => ((c :: (runCallbacks throws cs).1), (runCallbacks throws cs).2 + 1)

/-- Source `notifyListeners(roomId, profile)`: look the room up and run the
fan-out loop.  Returns the (unchanged) registry and the callbacks invoked. -/
def notifyListeners {Doc L : Type} (throws : L → Bool) (reg : Registry Doc L)
    (roomId : String) : Registry Doc L × List L :=
  match regGet reg roomId with
  | none => (reg, [])
  | some s => (reg, (runCallbacks throws s.listeners).1)

/-- JSON.stringify of `sub.profile`, which is `null` when no document is
known. -/
def serOpt {Doc : Type} (ser : Doc → String) : Option Doc → String
  | some d => ser d
  | none => "null"

/-- The primary change observer installed by `ensureSubscription`
(`profileMap.observe`): given the value now extracted from the shared document
(`extractProfile`, `none` when missing/falsy/unparsable), update and notify
only when the serialized value differs from the last known one.  Returns the
registry and whether a notification cycle ran.  (The JS closure captures the
`sub` object directly; the model reaches it through the registry, which agrees
with the source while the subscription is registered — after a destroy the
closure's writes touch only the orphaned object and `notifyListeners`, which
looks the room up in the map, delivers nothing.) -/
def observerStep {Doc L : Type} (ser : Doc → String) (reg : Registry Doc L)
    (roomId : String) (newProfile : Option Doc) : Registry Doc L × Bool :=
  match newProfile with
  | none => (reg, false)
  | some np =>
    match regGet reg roomId with
    | none => (reg, false)
    | some s =>
      if serOpt ser s.profile == ser np then (reg, false)
      else (regSet reg roomId { s with profile := some np }, true)

/-- One tick of the polling fallback (`startPolling`'s interval body): skip
when the subscription is gone or has no listeners; otherwise compare the
one-shot `fetchFresh` result (`fresh`, `none` on timeout/connection error)
against the last known value and update/notify on a delta. -/
def pollStep {Doc L : Type} (ser : Doc → String) (reg : Registry Doc L)
    (roomId : String) (fresh : Option Doc) : Registry Doc L × Bool :=
  match regGet reg roomId with
  | none => (reg, false)
  | some s =>
    if s.listeners.isEmpty then (reg, false)
    else
      match fresh with
      | none => (reg, false)
      | some fp =>
        if serOpt ser s.profile == ser fp then (reg, false)
        else (regSet reg roomId { s with profile := some fp }, true)

/-! The getProfile resolution pipeline. -/

/-- Candidate ordering of the network stage: the stale cache's
`sourceRelay` (if truthy and among the candidates) is moved to the front
(`[preferredRelay, ...urls.filter(u => u !== preferredRelay)]`). -/
def orderedUrls (preferred : Option String) (urls : List String) : List String :=
  match jsTruthyStr preferred with
  | some p => if urls.contains p then p :: urls.filter (fun u => !(u == p)) else urls
  | none => urls

/-- First success across a candidate list, under a data oracle. -/
def firstSome {Doc : Type} (netd : String → Option Doc) : List String → Option Doc
  | [] => none
  | u :: rest =>
    match netd u with
    | some d => some d
    | none => firstSome netd rest

/-- The network loop of `getProfile` (step 3): for each candidate,
`ensureSubscription`, await `ready`; a truthy profile is returned at once,
otherwise the subscription is destroyed and the next candidate tried (a thrown
error is handled identically). -/
def netLoop {Doc L : Type} (netd : String → Option Doc) :
    Registry Doc L → String → List String → Registry Doc L × Option Doc
  | reg, _, [] => (reg, none)
  | reg, roomId, u :: rest =>
    match ensureSubscription netd reg roomId u with
    | (reg1, some d) => (reg1, some d)
    | (reg1, none) => netLoop netd (destroySubscription reg1 roomId) roomId rest

/-- Steps 3–5 of `getProfile`: with no candidates, fall back to
`cached?.profile || null`; otherwise run the network loop over the preferred
ordering and fall back to the stale cache. -/
def getProfileNet {Doc L : Type} (netd : String → Option Doc)
    (reg : Registry Doc L) (cached : Option (CacheEntry Doc)) (roomId : String)
    (urls : List String) : Registry Doc L × Option Doc :=
  if urls.isEmpty then (reg, cached.map (·.profile))
  else
    let ordered := orderedUrls (cached.bind (·.sourceRelay)) urls
    match netLoop netd reg roomId ordered with
    | (reg1, some d) => (reg1, some d)
    | (reg1, none) => (reg1, cached.map (·.profile))

/-- Steps 2–5 of `getProfile`: a fresh cache entry (age strictly under the
TTL) is returned at once, opportunistically starting a background subscription
bound to `cached.sourceRelay || urls[0]` when that is truthy; otherwise the
network stage runs. -/
def getProfileCold {Doc L : Type} (netd : String → Option Doc)
    (reg : Registry Doc L) (cached : Option (CacheEntry Doc)) (now : Nat)
    (roomId : String) (urls : List String) : Registry Doc L × Option Doc :=
  match cached with
  | some c =>
    if now - c.cachedAt < CACHE_TTL_MS then
      let ru := jsTruthyStr (match jsTruthyStr c.sourceRelay with
        | some r => some r
        | none => urls.head?)
      match ru with
      | some r => ((ensureSubscription netd reg roomId r).1, some c.profile)
      | none => (reg, some c.profile)
    else getProfileNet netd reg (some c) roomId urls
  | none => getProfileNet netd reg none roomId urls

/-- Source `getProfile(profileId, relayUrls)`: live subscription with a known
document first, then the cold path.  `cached` is the `readCache` result for
the derived room and `now` the clock reading used for the TTL comparison. -/
def getProfile {Doc L : Type} (netd : String → Option Doc)
    (reg : Registry Doc L) (cached : Option (CacheEntry Doc)) (now : Nat)
    (profileId : String) (urls : List String) : Registry Doc L × Option Doc :=
  let roomId := toRoomId profileId
  match regGet reg roomId with
  | some s =>
    match s.profile with
    | some p => (reg, some p)
    | none => getProfileCold netd reg cached now roomId urls
  | none => getProfileCold netd reg cached now roomId urls

/-! The five stages of the resolution order, named separately so the pipeline
can be stated as their ordered fallback chain. -/

/-- Ordered fallback on optional values (`a` if present, else `b`). -/
def orO {α : Type} (a b : Option α) : Option α :=
  match a with
  | some x => some x
  | none => b

/-- Stage 1: content of an existing replica for the room. -/
def liveStage {Doc L : Type} (reg : Registry Doc L) (roomId : String) : Option Doc :=
  (regGet reg roomId).bind (·.profile)

/-- Stage 2: the disk cache entry when its age is under the TTL. -/
def freshStage {Doc : Type} (cached : Option (CacheEntry Doc)) (now : Nat) : Option Doc :=
  match cached with
  | some c => if now - c.cachedAt < CACHE_TTL_MS then some c.profile else none
  | none => none

/-- Stage 3: result of the network loop over the preferred candidate
ordering (none when there are no candidates). -/
def networkStage {Doc L : Type} (netd : String → Option Doc)
    (reg : Registry Doc L) (roomId : String) (cached : Option (CacheEntry Doc))
    (urls : List String) : Option Doc :=
  if urls.isEmpty then none
  else (netLoop netd reg roomId (orderedUrls (cached.bind (·.sourceRelay)) urls)).2

/-- Stage 4: the disk cache entry regardless of age. -/
def staleStage {Doc : Type} (cached : Option (CacheEntry Doc)) : Option Doc :=
  cached.map (·.profile)

theorem getProfileNet_snd {Doc L : Type} (netd : String → Option Doc)
    (reg : Registry Doc L) (cached : Option (CacheEntry Doc)) (roomId : String)
    (urls : List String) :
    (getProfileNet netd reg cached roomId urls).2 =
      orO (networkStage netd reg roomId cached urls) (staleStage cached) := by
  unfold getProfileNet networkStage staleStage
  by_cases hu : urls.isEmpty
  · simp [hu, orO]
  · simp only [hu, Bool.false_eq_true, ite_false, if_false]
    rcases hnl : netLoop netd reg roomId (orderedUrls (cached.bind (·.sourceRelay)) urls)
      with ⟨reg1, _ | d⟩ <;> simp [hnl, orO]

theorem getProfileCold_snd {Doc L : Type} (netd : String → Option Doc)
    (reg : Registry Doc L) (cached : Option (CacheEntry Doc)) (now : Nat)
    (roomId : String) (urls : List String) :
    (getProfileCold netd reg cached now roomId urls).2 =
      orO (freshStage cached now)
        (orO (networkStage netd reg roomId cached urls) (staleStage cached)) := by
  unfold getProfileCold
  cases cached with
  | none => simpa [freshStage, orO] using getProfileNet_snd netd reg none roomId urls
  | some c =>
    by_cases hf : now - c.cachedAt < CACHE_TTL_MS
    · rcases hru : jsTruthyStr (match jsTruthyStr c.sourceRelay with
        | some r => some r
        | none => urls.head?) with _ | r <;>
        simp [hf, hru, freshStage, orO]
    · simpa [hf, freshStage, orO] using getProfileNet_snd netd reg (some c) roomId urls

theorem netLoop_snd_of_none {Doc L : Type} (netd : String → Option Doc)
    (reg : Registry Doc L) (roomId : String) (l : List String)
    (h : regGet reg roomId = none) :
    (netLoop netd reg roomId l).2 = firstSome netd l := by
  induction l generalizing reg with
  | nil => simp [netLoop, firstSome]
  | cons u rest ih =>
    unfold netLoop firstSome
    simp only [ensureSubscription, h]
    cases hn : netd u with
    | some d => simp [hn]
    | none =>
      simp only [hn]
      exact ih (destroySubscription (regSet reg roomId _) roomId)
        (regGet_regDelete_self _ _)

/-- C1: `getProfile` resolves by the fixed fallback chain — existing replica
content, then cache under TTL, then the network stage, then the cache
regardless of age, then absent — and, when no replica pre-exists for the room,
the network stage is exactly the first document obtained from the relay
candidates in their preferred order. -/
theorem getProfile_resolution_order {Doc L : Type} (netd : String → Option Doc)
    (reg : Registry Doc L) (cached : Option (CacheEntry Doc)) (now : Nat)
    (profileId : String) (urls : List String) :
    (getProfile netd reg cached now profileId urls).2 =
      orO (liveStage reg (toRoomId profileId))
        (orO (freshStage cached now)
          (orO (networkStage netd reg (toRoomId profileId) cached urls)
            (staleStage cached))) ∧
    (regGet reg (toRoomId profileId) = none →
      networkStage netd reg (toRoomId profileId) cached urls =
        if urls.isEmpty then none
        else firstSome netd (orderedUrls (cached.bind (·.sourceRelay)) urls)) := by
  constructor
  · unfold getProfile
    cases hg : regGet reg (toRoomId profileId) with
    | none =>
      simpa [liveStage, hg, orO] using
        getProfileCold_snd netd reg cached now (toRoomId profileId) urls
    | some s =>
      cases hp : s.profile with
      | some p => simp [liveStage, hg, hp, orO]
      | none =>
        simpa [liveStage, hg, hp, orO] using
          getProfileCold_snd netd reg cached now (toRoomId profileId) urls
  · intro h
    unfold networkStage
    by_cases hu : urls.isEmpty
    · simp [hu]
    · simp [hu, netLoop_snd_of_none netd reg (toRoomId profileId) _ h]

/-- Witness for C1: with an empty registry, a stale cache entry pointing at
relay r1, and candidates [r0, r1] of which only r1 has the document, the
result is r1's document and the network stage is the first network success in
preferred order. -/
theorem getProfile_resolution_order_witness :
    (getProfile (fun u => if u == "r1" then some 7 else none)
      ([] : Registry Nat Nat) (some ⟨3, 0, some "r1"⟩) CACHE_TTL_MS
      "x" ["r0", "r1"]).2 = some 7 ∧
    networkStage (fun u => if u == "r1" then some 7 else none)
      ([] : Registry Nat Nat) (toRoomId "x") (some ⟨3, 0, some "r1"⟩)
      ["r0", "r1"] = some 7 := by
  have h := getProfile_resolution_order (fun u => if u == "r1" then some 7 else none)
    ([] : Registry Nat Nat) (some ⟨3, 0, some "r1"⟩) CACHE_TTL_MS "x" ["r0", "r1"]
  constructor
  · rw [h.1]; decide
  · rw [h.2 (by decide)]; decide

theorem netLoop_snd_none_of_allFail {Doc L : Type} (netd : String → Option Doc)
    (reg : Registry Doc L) (roomId : String) (l : List String)
    (h : liveStage reg roomId = none) (hn : ∀ u, netd u = none) :
    (netLoop netd reg roomId l).2 = none := by
  induction l generalizing reg with
  | nil => simp [netLoop]
  | cons u rest ih =>
    unfold netLoop
    cases hg : regGet reg roomId with
    | some s =>
      have hp : s.profile = none := by simpa [liveStage, hg] using h
      simp only [ensureSubscription, hg, hp]
      exact ih (destroySubscription (regSet reg roomId _) roomId)
        (by simp [liveStage, destroySubscription, regGet_regDelete_self])
    | none =>
      simp only [ensureSubscription, hg, hn u]
      exact ih (destroySubscription (regSet reg roomId _) roomId)
        (by simp [liveStage, destroySubscription, regGet_regDelete_self])

/-- C5: when the cache entry for the room is older than the TTL, no replica
holds a document, and no relay candidate yields one, `getProfile` still
returns the stale cached document rather than absent — cache entries stay
usable as last resort regardless of age. -/
theorem stale_cache_last_resort {Doc L : Type} (netd : String → Option Doc)
    (reg : Registry Doc L) (c : CacheEntry Doc) (now : Nat)
    (profileId : String) (urls : List String)
    (hlive : liveStage reg (toRoomId profileId) = none)
    (hstale : ¬ (now - c.cachedAt < CACHE_TTL_MS))
    (hnet : ∀ u, netd u = none) :
    (getProfile netd reg (some c) now profileId urls).2 = some c.profile := by
  rw [(getProfile_resolution_order netd reg (some c) now profileId urls).1]
  have hns : networkStage netd reg (toRoomId profileId) (some c) urls = none := by
    unfold networkStage
    by_cases hu : urls.isEmpty
    · simp [hu]
    · simp [hu, netLoop_snd_none_of_allFail netd reg (toRoomId profileId) _ hlive hnet]
  simp [hlive, freshStage, hstale, hns, staleStage, orO]

/-- Witness for C5: stale entry, empty registry, both candidates dead. -/
theorem stale_cache_last_resort_witness :
    (getProfile (fun _ => (none : Option Nat)) ([] : Registry Nat Nat)
      (some ⟨5, 0, some "a"⟩) CACHE_TTL_MS "x" ["a", "b"]).2 = some 5 :=
  stale_cache_last_resort (fun _ => none) [] ⟨5, 0, some "a"⟩ CACHE_TTL_MS "x"
    ["a", "b"] (by decide) (by decide) (fun _ => rfl)

/-! Timed model of the `ready` promise and the network loop.  The oracle
`net : String -> Option (Nat × Doc)` gives, per relay URL, the time (ms after
the attempt starts) at which the connection first yields a document, if ever.
The `ready` promise of a fresh subscription settles once — with the document
when it arrives before the 10 s timer, else with the (still absent) profile
when the timer fires; a connection error does not settle it (the source's
`connection-error` handler only logs). -/

/-- Value and settlement time of a fresh subscription's `ready` promise. -/
def readyResult {Doc : Type} (net : String → Option (Nat × Doc)) (u : String) :
    Option Doc × Nat :=
  match net u with
  | some (t, d) => if t < READY_TIMEOUT_MS then (some d, t) else (none, READY_TIMEOUT_MS)
  | none => (none, READY_TIMEOUT_MS)

/-- Timed semantics of the `getProfile` network loop over fresh attempts: each
candidate is awaited in turn, so the elapsed time is the sum of the settlement
times of the failed attempts plus that of the succeeding one.  Returns the
document obtained and the total elapsed time. -/
def timedNetLoop {Doc : Type} (net : String → Option (Nat × Doc)) :
    List String → Option Doc × Nat
  | [] => (none, 0)
  | u :: rest =>
    match readyResult net u with
    | (some d, t) => (some d, t)
    | (none, t) =>
      ((timedNetLoop net rest).1, t + (timedNetLoop net rest).2)

/-- The timed loop obtains the same document as the untimed one. -/
theorem timedNetLoop_fst {Doc : Type} (net : String → Option (Nat × Doc))
    (l : List String) :
    (timedNetLoop net l).1 = firstSome (fun u => (readyResult net u).1) l := by
  induction l with
  | nil => rfl
  | cons u rest ih =>
    unfold timedNetLoop firstSome
    rcases hr : readyResult net u with ⟨_ | d, t⟩ <;> simp [hr, ih]

/-- Counterexample to C2 as stated.  Input: candidates [A, B]; A yields
nothing (e.g. connection refused — which does not settle the `ready` promise
early), B has the document available immediately.  The loop returns B's
document only after A's full 10000 ms bound has elapsed, so A's immediate
failure delayed B's attempt by the whole bound — the candidates are tried
sequentially, not raced in parallel.  Moreover a preferred relay whose
document arrives at 7000 ms (past the claimed 5 s short bound) still succeeds:
the only bound anywhere is the 10 s `ready` timeout. -/
theorem network_race_counterexample :
    (timedNetLoop (fun u => if u == "B" then some (0, 42) else none)
      ["A", "B"]).1 = some 42 ∧
    (timedNetLoop (fun u => if u == "B" then some (0, 42) else none)
      ["A", "B"]).2 = READY_TIMEOUT_MS ∧
    READY_TIMEOUT_MS ≠ 0 ∧
    readyResult (fun u => if u == "P" then some (7000, 9) else none) "P"
      = (some 9, 7000) ∧
    ¬ (7000 < 5000) := by decide

/-- C2 as amended: in the network stage the cache's last known source relay is
merely moved to the front of the candidate list; the candidates are then tried
strictly sequentially, each attempt bounded by the same 10-second `ready`
timeout; a candidate that yields nothing (connection errors do not settle the
`ready` promise early) consumes its full 10-second bound before the next
candidate's attempt starts, while a candidate whose document arrives within
the bound settles at its arrival time. -/
theorem network_stage_sequential {Doc : Type} (net : String → Option (Nat × Doc))
    (p u : String) (urls rest : List String)
    (hp : urls.contains p = true) (hpne : p.isEmpty = false)
    (hfail : net u = none) :
    orderedUrls (some p) urls = p :: urls.filter (fun x => !(x == p)) ∧
    timedNetLoop net (u :: rest) =
      ((timedNetLoop net rest).1, READY_TIMEOUT_MS + (timedNetLoop net rest).2) ∧
    (∀ u' t (d : Doc), net u' = some (t, d) → t < READY_TIMEOUT_MS →
      timedNetLoop net (u' :: rest) = (some d, t)) := by
  have hstep : ∀ (u' : String),
      timedNetLoop net (u' :: rest) =
        match readyResult net u' with
        | (some d, t) => (some d, t)
        | (none, t) => ((timedNetLoop net rest).1, t + (timedNetLoop net rest).2) :=
    fun _ => rfl
  refine ⟨?_, ?_, ?_⟩
  · have hmem : p ∈ urls := by simpa using hp
    simp [orderedUrls, jsTruthyStr, hpne, hmem]
  · rw [hstep u]
    simp [readyResult, hfail]
  · intro u' t d h ht
    rw [hstep u']
    simp [readyResult, h, ht]

/-- Witness for the amended C2 at concrete inputs. -/
theorem network_stage_sequential_witness :
    orderedUrls (some "b") ["a", "b"] = ["b", "a"] ∧
    timedNetLoop (fun _ => (none : Option (Nat × Nat))) ["a"] = (none, READY_TIMEOUT_MS) ∧
    timedNetLoop (fun u => if u == "c" then some (5, 3) else none) ["c"] = (some 3, 5) := by
  have h := network_stage_sequential (fun u => if u == "c" then some (5, (3 : Nat)) else none)
    "b" "z" ["a", "b"] [] (by decide) (by decide) (by decide)
  have h2 := network_stage_sequential (fun _ => (none : Option (Nat × Nat)))
    "b" "a" ["a", "b"] [] (by decide) (by decide) (by decide)
  refine ⟨?_, ?_, ?_⟩
  · have := h.1; simpa using this
  · simpa using h2.2.1
  · exact h.2.2 "c" 5 3 (by decide) (by decide)

/-- Timed semantics of the `ready` future returned by `subscribe`: on reuse
of an existing subscription, `ensureSubscription` returns
`Promise.resolve(sub.profile)`, which settles immediately (time 0) with the
replica's current profile; on creation, the future settles as `readyResult`
does.  The relay attempted is the existing subscription's bound relay when
one exists, else the first candidate. -/
def subscribeReady {Doc L : Type} (net : String → Option (Nat × Doc))
    (reg : Registry Doc L) (profileId : String) (urls : List String) :
    Option Doc × Nat :=
  match regGet reg (toRoomId profileId) with
  | some s => (s.profile, 0)
  | none => readyResult net (urls.headD "")

/-- Counterexample to C3 as stated.  Input: a replica for room profile-x
already exists but has no known document yet (for instance it was just created
by a concurrent caller and has not synced); `subscribe("x", ...)` reuses it,
and its `ready` future settles with absent immediately (time 0), not after the
10-second grace window. -/
theorem subscribe_ready_counterexample :
    subscribeReady (fun _ => (none : Option (Nat × Nat)))
      ([("profile-x", ⟨none, [], "u", true, true⟩)] : Registry Nat Nat)
      "x" ["u"] = (none, 0) ∧
    (0 : Nat) < READY_TIMEOUT_MS := by decide

/-- C3 as amended: when `subscribe` creates a new replica, the returned
`ready` future settles with the first known document snapshot (at its arrival
time, before the grace window closes) and settles with absent only when the
10-second grace window fires; but when `subscribe` reuses an existing replica,
the future settles immediately with that replica's current snapshot — which is
absent whenever the replica has no document yet. -/
theorem subscribe_ready_grace {Doc L : Type} (net : String → Option (Nat × Doc))
    (reg : Registry Doc L) (profileId : String) (urls : List String) :
    (∀ s, regGet reg (toRoomId profileId) = some s →
      subscribeReady net reg profileId urls = (s.profile, 0)) ∧
    (regGet reg (toRoomId profileId) = none →
      ((subscribeReady net reg profileId urls).1 = none →
        (subscribeReady net reg profileId urls).2 = READY_TIMEOUT_MS) ∧
      (∀ d, (subscribeReady net reg profileId urls).1 = some d →
        (subscribeReady net reg profileId urls).2 < READY_TIMEOUT_MS ∧
        net (urls.headD "") = some ((subscribeReady net reg profileId urls).2, d))) := by
  have hnone : ∀ u, (readyResult net u).1 = none →
      (readyResult net u).2 = READY_TIMEOUT_MS := by
    intro u h
    unfold readyResult at h ⊢
    rcases hnet : net u with _ | ⟨t, d⟩
    · simp [hnet]
    · by_cases ht : t < READY_TIMEOUT_MS
      · rw [hnet] at h; simp [ht] at h
      · simp [hnet, ht]
  have hsome : ∀ u (d : Doc), (readyResult net u).1 = some d →
      (readyResult net u).2 < READY_TIMEOUT_MS ∧
      net u = some ((readyResult net u).2, d) := by
    intro u d h
    unfold readyResult at h ⊢
    rcases hnet : net u with _ | ⟨t, d'⟩
    · rw [hnet] at h; simp at h
    · by_cases ht : t < READY_TIMEOUT_MS
      · rw [hnet] at h
        simp only [ht, if_true, ite_true] at h ⊢
        simp at h
        simp [hnet, ht, h]
      · rw [hnet] at h; simp [ht] at h
  constructor
  · intro s hs
    simp [subscribeReady, hs]
  · intro hn
    simp only [subscribeReady, hn]
    exact ⟨hnone _, fun d hd => hsome _ d hd⟩

/-- Witness for the amended C3: reuse settles at once with the stored
snapshot; a fresh attempt whose document arrives at 4 ms settles then. -/
theorem subscribe_ready_grace_witness :
    subscribeReady (fun _ => (none : Option (Nat × Nat)))
      ([("profile-x", ⟨some 8, [], "u", true, true⟩)] : Registry Nat Nat)
      "x" ["u"] = (some 8, 0) ∧
    (subscribeReady (fun _ => some (4, 6)) ([] : Registry Nat Nat)
      "y" ["u"]).2 < READY_TIMEOUT_MS := by
  constructor
  · exact (subscribe_ready_grace (fun _ => none)
      ([("profile-x", ⟨some 8, [], "u", true, true⟩)] : Registry Nat Nat)
      "x" ["u"]).1 ⟨some 8, [], "u", true, true⟩ (by decide)
  · exact (((subscribe_ready_grace (fun _ => some (4, 6))
      ([] : Registry Nat Nat) "y" ["u"]).2 (by decide)).2 6 (by decide)).1

theorem runCallbacks_fst {L : Type} (throws : L → Bool) (l : List L) :
    (runCallbacks throws l).1 = l := by
  induction l with
  | nil => rfl
  | cons c cs ih =>
    unfold runCallbacks
    cases h : invokeListener throws c <;> simp [ih]

/-- C6: during the notification fan-out, a listener that throws is caught by
the per-invocation guard: every listener (itself included) is still invoked,
in registration order, and the registry — hence the replica's document,
listener set and timer state — is left unchanged. -/
theorem listener_isolation {Doc L : Type} (throws : L → Bool)
    (reg : Registry Doc L) (roomId : String) (s : Subscription Doc L) (c : L)
    (hs : regGet reg roomId = some s) (hc : c ∈ s.listeners)
    (ht : throws c = true) :
    notifyListeners throws reg roomId = (reg, s.listeners) := by
  simp [notifyListeners, hs, runCallbacks_fst]

/-- Witness for C6: listener 2 throws; all three listeners are invoked and
the registry is untouched. -/
theorem listener_isolation_witness :
    notifyListeners (fun x => x == 2)
      ([("profile-x", ⟨some 1, [1, 2, 3], "u", true, true⟩)] : Registry Nat Nat)
      "profile-x"
      = ([("profile-x", ⟨some 1, [1, 2, 3], "u", true, true⟩)], [1, 2, 3]) :=
  listener_isolation (fun x => x == 2) _ "profile-x" ⟨some 1, [1, 2, 3], "u", true, true⟩
    2 (by decide) (by decide) (by decide)

/-- C9: unsubscribing one subscriber's callback removes exactly that callback:
the other subscriber's callback stays registered, every callback other than
the removed one stays registered, and a subsequent notification fan-out still
invokes the surviving callback. -/
theorem unsubscribe_frame {Doc L : Type} [DecidableEq L] (throws : L → Bool)
    (reg : Registry Doc L) (roomId : String) (cb1 cb2 : L)
    (s : Subscription Doc L) (hs : regGet reg roomId = some s)
    (hne : cb1 ≠ cb2) (h2 : cb2 ∈ s.listeners) :
    ∃ s', regGet (unsubscribeStep reg roomId cb1) roomId = some s' ∧
      cb1 ∉ s'.listeners ∧ cb2 ∈ s'.listeners ∧
      (∀ x ∈ s.listeners, x ≠ cb1 → x ∈ s'.listeners) ∧
      cb2 ∈ (notifyListeners throws (unsubscribeStep reg roomId cb1) roomId).2 := by
  have h2' : cb2 ∈ setDel s.listeners cb1 := by
    simp [setDel, h2]
    exact fun h => hne h.symm
  have hemp : (setDel s.listeners cb1).isEmpty = false := by
    cases hd : setDel s.listeners cb1 with
    | nil => rw [hd] at h2'; simp at h2'
    | cons a l => simp [List.isEmpty]
  have hstep : unsubscribeStep reg roomId cb1 =
      regSet reg roomId { s with listeners := setDel s.listeners cb1 } := by
    simp [unsubscribeStep, hs, hemp]
  refine ⟨{ s with listeners := setDel s.listeners cb1 }, ?_, ?_, h2', ?_, ?_⟩
  · rw [hstep]; exact regGet_regSet_self reg roomId _
  · simp [setDel]
  · intro x hx hxne
    simp [setDel, hx]
    exact hxne
  · rw [hstep]
    simp [notifyListeners, regGet_regSet_self, runCallbacks_fst]
    exact h2'

/-- Witness for C9: two distinct callbacks 1 and 2; unsubscribing 1 leaves 2
registered and notified. -/
theorem unsubscribe_frame_witness :
    ∃ s', regGet (unsubscribeStep
        ([("profile-x", ⟨some 1, [1, 2], "u", true, true⟩)] : Registry Nat Nat)
        "profile-x" 1) "profile-x" = some s' ∧
      1 ∉ s'.listeners ∧ 2 ∈ s'.listeners ∧
      (∀ x ∈ ([1, 2] : List Nat), x ≠ 1 → x ∈ s'.listeners) ∧
      2 ∈ (notifyListeners (fun _ => false) (unsubscribeStep
        ([("profile-x", ⟨some 1, [1, 2], "u", true, true⟩)] : Registry Nat Nat)
        "profile-x" 1) "profile-x").2 :=
  unsubscribe_frame (fun _ => false) _ "profile-x" 1 2
    ⟨some 1, [1, 2], "u", true, true⟩ (by decide) (by decide) (by decide)

theorem observerStep_key {Doc L : Type} (ser : Doc → String) (reg : Registry Doc L)
    (roomId : String) (v : Doc) (s : Subscription Doc L)
    (hs : regGet reg roomId = some s) :
    ∃ s', regGet (observerStep ser reg roomId (some v)).1 roomId = some s' ∧
      serOpt ser s'.profile = ser v := by
  unfold observerStep
  rw [hs]
  by_cases h : serOpt ser s.profile == ser v
  · exact ⟨s, by simp [h, hs], by simpa using h⟩
  · exact ⟨{ s with profile := some v }, by simp [h, regGet_regSet_self], by simp [serOpt]⟩

theorem pollStep_key_of_notified {Doc L : Type} (ser : Doc → String)
    (reg : Registry Doc L) (roomId : String) (v : Doc)
    (hnot : (pollStep ser reg roomId (some v)).2 = true) :
    ∃ s', regGet (pollStep ser reg roomId (some v)).1 roomId = some s' ∧
      serOpt ser s'.profile = ser v := by
  unfold pollStep at hnot ⊢
  cases hs : regGet reg roomId with
  | none => rw [hs] at hnot; simp at hnot
  | some s =>
    rw [hs] at hnot
    by_cases he : s.listeners.isEmpty
    · simp [he] at hnot
    · by_cases h : serOpt ser s.profile == ser v
      · simp [he, h] at hnot
      · exact ⟨{ s with profile := some v },
          by simp [he, h, regGet_regSet_self], by simp [serOpt]⟩

theorem no_renotify {Doc L : Type} (ser : Doc → String) (reg : Registry Doc L)
    (roomId : String) (v w : Doc) (s' : Subscription Doc L)
    (hs' : regGet reg roomId = some s') (hkey : serOpt ser s'.profile = ser v)
    (hw : ser w = ser v) :
    (observerStep ser reg roomId (some w)).2 = false ∧
    (pollStep ser reg roomId (some w)).2 = false := by
  have hbeq : (serOpt ser s'.profile == ser w) = true := by
    rw [hkey, hw]; simp
  constructor
  · unfold observerStep; rw [hs']; simp [hbeq]
  · unfold pollStep; rw [hs']
    by_cases he : s'.listeners.isEmpty <;> simp [he, hbeq]

/-- C8: a change first handled by the primary observer and the same
serialized value later seen by the polling loop (or by the observer again)
produces no second notification, and symmetrically a change first notified by
a polling tick is not re-notified; the observer notifies only when the
serialized value differs from the last known one — one notification cycle per
distinct serialized value. -/
theorem change_notified_once {Doc L : Type} (ser : Doc → String)
    (reg : Registry Doc L) (roomId : String) (v w : Doc) (s : Subscription Doc L)
    (hs : regGet reg roomId = some s) (hw : ser w = ser v) :
    ((observerStep ser reg roomId (some v)).2 = true → serOpt ser s.profile ≠ ser v) ∧
    (pollStep ser (observerStep ser reg roomId (some v)).1 roomId (some w)).2 = false ∧
    (observerStep ser (observerStep ser reg roomId (some v)).1 roomId (some w)).2 = false ∧
    ((pollStep ser reg roomId (some v)).2 = true →
      (observerStep ser (pollStep ser reg roomId (some v)).1 roomId (some w)).2 = false ∧
      (pollStep ser (pollStep ser reg roomId (some v)).1 roomId (some w)).2 = false) := by
  obtain ⟨s1, hs1, hk1⟩ := observerStep_key ser reg roomId v s hs
  have hob := no_renotify ser _ roomId v w s1 hs1 hk1 hw
  refine ⟨?_, hob.2, hob.1, ?_⟩
  · intro hnot heq
    unfold observerStep at hnot
    rw [hs] at hnot
    have : (serOpt ser s.profile == ser v) = true := by rw [heq]; simp
    simp [this] at hnot
  · intro hnot
    obtain ⟨s2, hs2, hk2⟩ := pollStep_key_of_notified ser reg roomId v hnot
    have hpo := no_renotify ser _ roomId v w s2 hs2 hk2 hw
    exact ⟨hpo.1, hpo.2⟩

/-- Witness for C8: the observer notifies for value 5 (previous value
absent), after which neither a polling tick nor the observer re-notifies for
the same serialized value; a poll-first notification likewise suppresses
re-notification. -/
theorem change_notified_once_witness :
    (pollStep (fun n => toString n) (observerStep (fun n => toString n)
      ([("r", ⟨none, [1], "u", true, true⟩)] : Registry Nat Nat)
      "r" (some 5)).1 "r" (some 5)).2 = false ∧
    (observerStep (fun n => toString n) (observerStep (fun n => toString n)
      ([("r", ⟨none, [1], "u", true, true⟩)] : Registry Nat Nat)
      "r" (some 5)).1 "r" (some 5)).2 = false ∧
    (pollStep (fun n => toString n) (pollStep (fun n => toString n)
      ([("r", ⟨none, [1], "u", true, true⟩)] : Registry Nat Nat)
      "r" (some 5)).1 "r" (some 5)).2 = false := by
  have h := change_notified_once (fun n => toString n)
    ([("r", ⟨none, [1], "u", true, true⟩)] : Registry Nat Nat)
    "r" 5 5 ⟨none, [1], "u", true, true⟩ (by decide) rfl
  exact ⟨h.2.1, h.2.2.1, (h.2.2.2 (by decide)).2⟩

theorem keysNodup_ensureSubscription {Doc L : Type} (netd : String → Option Doc)
    (reg : Registry Doc L) (roomId relayUrl : String) (h : keysNodup reg) :
    keysNodup (ensureSubscription netd reg roomId relayUrl).1 := by
  unfold ensureSubscription
  cases hg : regGet reg roomId <;> simp <;> exact keysNodup_regSet reg roomId _ h

theorem keysNodup_netLoop {Doc L : Type} (netd : String → Option Doc)
    (reg : Registry Doc L) (roomId : String) (l : List String)
    (h : keysNodup reg) : keysNodup (netLoop netd reg roomId l).1 := by
  induction l generalizing reg with
  | nil => simpa [netLoop] using h
  | cons u rest ih =>
    unfold netLoop
    rcases hE : ensureSubscription netd reg roomId u with ⟨reg1, p⟩
    have h1 : keysNodup reg1 := by
      have := keysNodup_ensureSubscription netd reg roomId u h
      rw [hE] at this
      exact this
    cases p with
    | some d => simpa using h1
    | none =>
      simp only []
      exact ih (destroySubscription reg1 roomId) (keysNodup_regDelete reg1 roomId h1)

theorem keysNodup_getProfileNet {Doc L : Type} (netd : String → Option Doc)
    (reg : Registry Doc L) (cached : Option (CacheEntry Doc)) (roomId : String)
    (urls : List String) (h : keysNodup reg) :
    keysNodup (getProfileNet netd reg cached roomId urls).1 := by
  unfold getProfileNet
  by_cases hu : urls.isEmpty
  · simpa [hu] using h
  · simp only [hu, Bool.false_eq_true, ite_false, if_false]
    rcases hnl : netLoop netd reg roomId (orderedUrls (cached.bind (·.sourceRelay)) urls)
      with ⟨reg1, _ | d⟩ <;>
    · have := keysNodup_netLoop netd reg roomId
        (orderedUrls (cached.bind (·.sourceRelay)) urls) h
      rw [hnl] at this
      simpa using this

theorem keysNodup_getProfileCold {Doc L : Type} (netd : String → Option Doc)
    (reg : Registry Doc L) (cached : Option (CacheEntry Doc)) (now : Nat)
    (roomId : String) (urls : List String) (h : keysNodup reg) :
    keysNodup (getProfileCold netd reg cached now roomId urls).1 := by
  unfold getProfileCold
  cases cached with
  | none => exact keysNodup_getProfileNet netd reg none roomId urls h
  | some c =>
    by_cases hf : now - c.cachedAt < CACHE_TTL_MS
    · rcases hru : jsTruthyStr (match jsTruthyStr c.sourceRelay with
        | some r => some r
        | none => urls.head?) with _ | r
      · simpa [hf, hru] using h
      · simpa [hf, hru] using keysNodup_ensureSubscription netd reg roomId r h
    · simpa [hf] using keysNodup_getProfileNet netd reg (some c) roomId urls h

theorem keysNodup_getProfile {Doc L : Type} (netd : String → Option Doc)
    (reg : Registry Doc L) (cached : Option (CacheEntry Doc)) (now : Nat)
    (profileId : String) (urls : List String) (h : keysNodup reg) :
    keysNodup (getProfile netd reg cached now profileId urls).1 := by
  unfold getProfile
  cases hg : regGet reg (toRoomId profileId) with
  | none =>
    simpa [hg] using keysNodup_getProfileCold netd reg cached now (toRoomId profileId) urls h
  | some s =>
    cases hp : s.profile with
    | some p => simpa [hg, hp] using h
    | none =>
      simpa [hg, hp] using
        keysNodup_getProfileCold netd reg cached now (toRoomId profileId) urls h

theorem keysNodup_subscribe {Doc L : Type} [DecidableEq L]
    (netd : String → Option Doc) (reg : Registry Doc L) (profileId : String)
    (urls : List String) (cb : L) (h : keysNodup reg) :
    keysNodup (subscribe netd reg profileId urls cb).1 := by
  have h1 : keysNodup (ensureSubscription netd reg (toRoomId profileId)
      (subscribeRelay reg (toRoomId profileId) urls)).1 :=
    keysNodup_ensureSubscription netd reg _ _ h
  show keysNodup (addListener _ _ _)
  unfold addListener
  cases hg : regGet (ensureSubscription netd reg (toRoomId profileId)
      (subscribeRelay reg (toRoomId profileId) urls)).1 (toRoomId profileId) with
  | none => simpa [hg] using h1
  | some s => simpa [hg] using keysNodup_regSet _ (toRoomId profileId) _ h1

/-- C7: starting from a registry whose keys are unique (at most one replica
per RoomId), every operation — getProfile, subscribe, unsubscribe, the
change-observer step, the polling step and idle teardown — preserves that
uniqueness; and subscribe for a room with an existing replica reuses it bound
to its own relay (its result does not depend on the supplied candidates) and
merely adds the callback to the listener set, never installing a second
replica. -/
theorem replica_uniqueness {Doc L : Type} [DecidableEq L]
    (netd : String → Option Doc) (ser : Doc → String) (reg : Registry Doc L)
    (h : keysNodup reg) :
    (∀ profileId urls (cb : L), keysNodup (subscribe netd reg profileId urls cb).1) ∧
    (∀ roomId (cb : L), keysNodup (unsubscribeStep reg roomId cb)) ∧
    (∀ cached now profileId urls,
      keysNodup (getProfile netd reg cached now profileId urls).1) ∧
    (∀ roomId v, keysNodup (observerStep ser reg roomId v).1) ∧
    (∀ roomId f, keysNodup (pollStep ser reg roomId f).1) ∧
    (∀ roomId, keysNodup (idleFire reg roomId)) ∧
    (∀ profileId urls urls' (cb : L) s, regGet reg (toRoomId profileId) = some s →
      subscribe netd reg profileId urls cb = subscribe netd reg profileId urls' cb ∧
      regGet (subscribe netd reg profileId urls cb).1 (toRoomId profileId) =
        some { s with listeners := setAdd s.listeners cb, idleTimerArmed := true }) := by
  refine ⟨fun pid urls cb => keysNodup_subscribe netd reg pid urls cb h,
    ?_, fun cached now pid urls => keysNodup_getProfile netd reg cached now pid urls h,
    ?_, ?_, ?_, ?_⟩
  · intro roomId cb
    unfold unsubscribeStep
    cases hg : regGet reg roomId with
    | none => simpa using h
    | some s =>
      by_cases he : (setDel s.listeners cb).isEmpty <;>
        simp [he] <;> exact keysNodup_regSet reg roomId _ h
  · intro roomId v
    unfold observerStep
    cases v with
    | none => simpa using h
    | some np =>
      cases hg : regGet reg roomId with
      | none => simpa using h
      | some s =>
        by_cases hb : serOpt ser s.profile == ser np
        · simpa [hb] using h
        · simpa [hb] using keysNodup_regSet reg roomId _ h
  · intro roomId f
    unfold pollStep
    cases hg : regGet reg roomId with
    | none => simpa using h
    | some s =>
      by_cases he : s.listeners.isEmpty
      · simpa [he] using h
      · cases f with
        | none => simpa [he] using h
        | some fp =>
          by_cases hb : serOpt ser s.profile == ser fp
          · simpa [he, hb] using h
          · simpa [he, hb] using keysNodup_regSet reg roomId _ h
  · intro roomId
    unfold idleFire
    cases hg : regGet reg roomId with
    | none => simpa using h
    | some s =>
      by_cases he : s.listeners.isEmpty
      · simpa [he] using keysNodup_regDelete reg roomId h
      · simpa [he] using h
  · intro pid urls urls' cb s hs
    have hrel : subscribeRelay reg (toRoomId pid) urls = s.relayUrl := by
      simp [subscribeRelay, hs]
    have hrel' : subscribeRelay reg (toRoomId pid) urls' = s.relayUrl := by
      simp [subscribeRelay, hs]
    have hens : ensureSubscription netd reg (toRoomId pid) s.relayUrl =
        (regSet reg (toRoomId pid) { s with idleTimerArmed := true }, s.profile) := by
      simp [ensureSubscription, hs]
    constructor
    · simp [subscribe, hrel, hrel']
    · simp only [subscribe, hrel, hens, addListener, regGet_regSet_self]

/-- Witness for C7 at a concrete registry with one replica for profile-x:
uniqueness is preserved by a subscribe, and subscribing with a different
candidate list gives the same result, reusing the replica bound to relay
u with the callback added. -/
theorem replica_uniqueness_witness :
    keysNodup (subscribe (fun _ => (none : Option Nat))
      ([("profile-x", ⟨some 1, [4], "u", true, true⟩)] : Registry Nat Nat)
      "x" ["a"] 7).1 ∧
    subscribe (fun _ => (none : Option Nat))
      ([("profile-x", ⟨some 1, [4], "u", true, true⟩)] : Registry Nat Nat)
      "x" ["a"] 7 =
    subscribe (fun _ => (none : Option Nat))
      ([("profile-x", ⟨some 1, [4], "u", true, true⟩)] : Registry Nat Nat)
      "x" ["b"] 7 ∧
    regGet (subscribe (fun _ => (none : Option Nat))
      ([("profile-x", ⟨some 1, [4], "u", true, true⟩)] : Registry Nat Nat)
      "x" ["a"] 7).1 (toRoomId "x") = some ⟨some 1, [4, 7], "u", true, true⟩ := by
  have h := replica_uniqueness (fun _ => (none : Option Nat)) (fun n => toString n)
    ([("profile-x", ⟨some 1, [4], "u", true, true⟩)] : Registry Nat Nat) (by decide)
  have hr := h.2.2.2.2.2.2 "x" ["a"] ["b"] 7 ⟨some 1, [4], "u", true, true⟩ (by decide)
  refine ⟨h.1 "x" ["a"] 7, hr.1, ?_⟩
  rw [hr.2]
  decide

/-! Relay node (relay/server.mjs, embed-aware revision).  The spec's
"Observer" role is the source's `embed` role (`?role=embed`); its "Full peer"
role is the source's `app` role.  The spec's out-of-band "update" message is
the source's `profileUpdate` JSON text message, whose `profile` field carries
the document payload. -/

/-- Connection role, fixed at connection establishment
(`query.role === 'embed' ? 'embed' : 'app'`). -/
inductive Role where
  | app : Role
  | embed : Role
deriving DecidableEq

/-- Role resolution from the connection URL's query parameter. -/
def roleOfQuery (q : Option String) : Role :=
  if q == some "embed" then Role.embed else Role.app

/-- Shape of the out-of-band JSON text message sent by `sendJsonMessage`
(`{type: 'profileUpdate', room, profile, timestamp}`). -/
structure PushMsg (Doc : Type) where
  type : String
  room : String
  profile : Doc
  timestamp : Nat
deriving DecidableEq

/-- Constructor used at both send sites. -/
def mkPushMsg {Doc : Type} (room : String) (p : Doc) (now : Nat) : PushMsg Doc :=
  { type := "profileUpdate", room := room, profile := p, timestamp := now }

/-- Server-side room bookkeeping: `rooms : roomName → Map<ws, {role}>`,
with connections as opaque values of a type `Conn`. -/
abbrev RelayRooms (Conn : Type) := List (String × List (Conn × Role))

/-- JS `Map.get` on the rooms map. -/
def roomsGet {Conn : Type} : RelayRooms Conn → String → Option (List (Conn × Role))
  | [], _ => none
  | e :: rest, k => if e.1 == k then some e.2 else roomsGet rest k

/-- Source `pushToEmbedClients(roomName, profile)`: walk the room's connection
map and send the push message to every connection whose role is `embed`.
Returns the (connection, message) pairs sent, in iteration order. -/
def pushToEmbedClients {Conn Doc : Type} (rooms : RelayRooms Conn)
    (roomName : String) (profile : Doc) (now : Nat) : List (Conn × PushMsg Doc) :=
  match roomsGet rooms roomName with
  | none => []
  | some clients =>
    clients.filterMap fun cr =>
      if cr.2 = Role.embed then some (cr.1, mkPushMsg roomName profile now) else none

/-- The room observer installed by `observeRoom`: when the raw serialized
value changes, remember it and push the parsed document to embed clients
(`parse` models `JSON.parse`, `none` on failure — in which case the new raw
value is still remembered but nothing is sent).  A missing or non-string
value is ignored. -/
def relayObserverStep {Conn Doc : Type} (parse : String → Option Doc)
    (rooms : RelayRooms Conn) (roomName : String) (lastJson : Option String)
    (newRaw : Option String) (now : Nat) :
    Option String × List (Conn × PushMsg Doc) :=
  match newRaw with
  | none => (lastJson, [])
  | some raw =>
    if lastJson == some raw then (lastJson, [])
    else
      match parse raw with
      | some p => (some raw, pushToEmbedClients rooms roomName p now)
      | none => (some raw, [])

/-- The welcome push of the connection handler: a newly connected embed-role
client is immediately sent the room's current value when one exists and
parses; other roles are never sent anything. -/
def welcomePush {Doc : Type} (parse : String → Option Doc) (role : Role)
    (roomName : String) (raw : Option String) (now : Nat) : Option (PushMsg Doc) :=
  match role with
  | Role.embed =>
    match raw with
    | some sraw =>
      match parse sraw with
      | some p => some (mkPushMsg roomName p now)
      | none => none
    | none => none
  | Role.app => none

/-- C4: every out-of-band message the relay sends — via the change-observer
push (`pushToEmbedClients`) or the new-observer welcome push — goes only to
connections whose role is Observer (`embed`), and always has the fixed shape
`{type, room, document payload, timestamp}` with the constant update tag and
the current room and timestamp. -/
theorem relay_push_role_gated {Conn Doc : Type} (parse : String → Option Doc)
    (rooms : RelayRooms Conn) (roomName : String) (profile : Doc) (now : Nat) :
    (∀ (conn : Conn) (msg : PushMsg Doc),
      (conn, msg) ∈ pushToEmbedClients rooms roomName profile now →
        (∃ clients, roomsGet rooms roomName = some clients ∧
          (conn, Role.embed) ∈ clients) ∧
        msg = mkPushMsg roomName profile now) ∧
    (∀ (lastJson newRaw : Option String) (conn : Conn) (msg : PushMsg Doc),
      (conn, msg) ∈ (relayObserverStep parse rooms roomName lastJson newRaw now).2 →
        (∃ clients, roomsGet rooms roomName = some clients ∧
          (conn, Role.embed) ∈ clients) ∧
        msg.type = "profileUpdate" ∧ msg.room = roomName ∧ msg.timestamp = now) ∧
    (∀ (role : Role) (raw : Option String) (msg : PushMsg Doc),
      welcomePush parse role roomName raw now = some msg →
        role = Role.embed ∧
        msg.type = "profileUpdate" ∧ msg.room = roomName ∧ msg.timestamp = now) := by
  have hpush : ∀ (p : Doc) (conn : Conn) (msg : PushMsg Doc),
      (conn, msg) ∈ pushToEmbedClients rooms roomName p now →
        (∃ clients, roomsGet rooms roomName = some clients ∧
          (conn, Role.embed) ∈ clients) ∧
        msg = mkPushMsg roomName p now := by
    intro p conn msg hmem
    unfold pushToEmbedClients at hmem
    cases hr : roomsGet rooms roomName with
    | none => rw [hr] at hmem; simp at hmem
    | some clients =>
      rw [hr] at hmem
      rw [List.mem_filterMap] at hmem
      obtain ⟨cr, hcr, heq⟩ := hmem
      by_cases hrole : cr.2 = Role.embed
      · rw [if_pos hrole] at heq
        simp only [Option.some.injEq, Prod.mk.injEq] at heq
        obtain ⟨h1, h2⟩ := heq
        refine ⟨⟨clients, rfl, ?_⟩, h2.symm⟩
        have hcre : (conn, Role.embed) = cr := by
          cases cr with
          | mk c r =>
            simp only at h1 hrole
            simp [← h1, hrole]
        rw [hcre]; exact hcr
      · rw [if_neg hrole] at heq; exact absurd heq (by simp)
  refine ⟨hpush profile, ?_, ?_⟩
  · intro lastJson newRaw conn msg hmem
    unfold relayObserverStep at hmem
    split at hmem
    · simp at hmem
    · split at hmem
      · simp at hmem
      · split at hmem
        · rename_i p hp
          obtain ⟨hcl, hmsg⟩ := hpush p conn msg (by simpa using hmem)
          exact ⟨hcl, by simp [hmsg, mkPushMsg]⟩
        · simp at hmem
  · intro role raw msg hmsg
    cases role with
    | app => simp [welcomePush] at hmsg
    | embed =>
      cases raw with
      | none => simp [welcomePush] at hmsg
      | some sraw =>
        cases hp : parse sraw with
        | none => simp [welcomePush, hp] at hmsg
        | some p =>
          simp only [welcomePush, hp, Option.some.injEq] at hmsg
          exact ⟨rfl, by simp [← hmsg, mkPushMsg]⟩

/-- Witness for C4: a room with one app and one embed connection; the change
push goes exactly to the embed connection with the fixed message shape, and
the welcome push for an embed-role arrival carries the same shape. -/
theorem relay_push_role_gated_witness :
    (∃ clients,
      roomsGet ([("r", [(1, Role.app), (2, Role.embed)])] : RelayRooms Nat) "r"
        = some clients ∧ ((2 : Nat), Role.embed) ∈ clients) ∧
    Role.embed = Role.embed ∧
    (mkPushMsg "r" (5 : Nat) 99).type = "profileUpdate" := by
  have h := relay_push_role_gated (fun sraw => if sraw == "j" then some (5 : Nat) else none)
    ([("r", [(1, Role.app), (2, Role.embed)])] : RelayRooms Nat) "r" 5 99
  have h1 := (h.1 2 (mkPushMsg "r" 5 99) (by decide)).1
  have h3 := h.2.2 Role.embed (some "j") (mkPushMsg "r" 5 99) (by decide)
  exact ⟨h1, h3.1, h3.2.1⟩

end Profiles
